import Mathlib

/-!
Shallow embedding of the storage core of `joscaz-vector-db`.

Sources embedded:
- `src/src/storage.c` (WAL, segment appends, create/close/append, recovery)
- `src/unnamed/part_001` (collection.c: `vdb_collection_validate_params`)
- `src/tests/test_types.c` (types.c: `vdb_id_is_valid`, `vdb_metric_is_valid`)
- `src/include/vdb/types.h`, `src/include/vdb/storage.h`, and the
  `collection.h` text embedded in `src/README.md`
  (`VDB_ID_MAX_LEN = 64`, `VDB_COLLECTION_NAME_MAX_LEN = 64`,
  `VDB_COLLECTION_MAX_DIM = 65536`).

Modelling conventions:
- A byte is a `Nat` (value of an `unsigned char`).
- A C string argument is `Option (List Byte)`: `none` is a NULL pointer,
  `some bs` is the sequence of bytes accessible from the pointer; the string
  content is the longest zero-free prefix (`cstr`).  A list containing no 0
  models a buffer with no terminator in the accessible bytes.
- A `float` is carried as its 32-bit pattern (a `Nat < 2^32`); its four
  little-endian memory bytes are `u32le`.  All storage operations move float
  bytes verbatim, so no floating-point arithmetic is needed.
- File-system effects are explicit state passing over per-collection records
  (`Seg` for the four files an open handle owns, `Disk` for the directory
  level used by create/close).  Path construction
  (`build_collection_path`/`build_file_path`) is abstracted into this
  per-collection state and not modelled further.
- Fallible OS calls are driven by an environment record: a `write` outcome is
  `Option Nat` (`none` = full write; `some k` = the kernel wrote only the
  first `k` bytes, which the C code detects as failure when `k` is short);
  `fsync`/`ftruncate`/`mkdir`/`open` outcomes are failure `Bool`s.
-/

namespace VDB

/-- A byte value (contents of an `unsigned char`). -/
abbrev Byte := Nat

/-- `vdb_status_t` from `include/vdb/types.h`. -/
inductive Status where
  | ok
  | invalidArgument
  | outOfMemory
  | ioError
  | notFound
  | alreadyExists
  | corrupted
  | dimensionMismatch
  | unknown
deriving DecidableEq, Repr

/-- `VDB_ID_MAX_LEN` (types.h). -/
def ID_MAX_LEN : Nat := 64

/-- `VDB_COLLECTION_NAME_MAX_LEN` (collection.h, reproduced in README). -/
def NAME_MAX_LEN : Nat := 64

/-- `VDB_COLLECTION_MAX_DIM` (collection.h, reproduced in README). -/
def MAX_DIM : Nat := 65536

/-- C `isprint` in the default locale: the printable ASCII range 0x20..0x7e. -/
def isprint (c : Byte) : Bool := 32 ≤ c && c ≤ 126

/-- Content of a C string: the bytes before the first NUL. -/
def cstr (bs : List Byte) : List Byte := bs.takeWhile (fun b => b ≠ 0)

/-- `vdb_metric_is_valid` (types.c, embedded in test_types.c): the metric
enum value is cosine (0) or euclidean (1). -/
def vdb_metric_is_valid (m : Int) : Bool := m == 0 || m == 1

/-- The scanning loop of `vdb_id_is_valid` (types.c): walk at most `fuel`
(initially `VDB_ID_MAX_LEN`) bytes; stop successfully at a NUL, reject a
non-printable byte, reject when no NUL is found within the bound. -/
def idValidLoop : List Byte → Nat → Bool
  | _, 0 => false
  | [], _ => false
  | b :: rest, fuel + 1 =>
    if b = 0 then true
    else if isprint b then idValidLoop rest fuel
    else false

/-- `vdb_id_is_valid` (types.c): NULL and empty ids are invalid; otherwise
every byte before the terminator must be printable and the terminator must
occur within `VDB_ID_MAX_LEN` bytes. -/
def vdb_id_is_valid : Option (List Byte) → Bool
  | none => false
  | some bs =>
    match bs with
    | [] => false
    | b :: rest => if b = 0 then false else idValidLoop (b :: rest) ID_MAX_LEN

/-- Little-endian memory bytes of a 32-bit value. -/
def u32le (n : Nat) : List Byte :=
  [n % 256, n / 256 % 256, n / 65536 % 256, n / 16777216 % 256]

/-- Bytes of a float32 array: each element's 4-byte pattern, concatenated
(no separators; the embeddings-segment record format). -/
def vecBytes (vec : List Nat) : List Byte := (vec.map u32le).flatten

/-- Bytes behind a nullable metadata string: `strlen`-delimited content,
empty for NULL (the code writes `metadata_len = 0` in that case). -/
def mdBytes : Option (List Byte) → List Byte
  | none => []
  | some bs => bs

/-- The fixed 64-byte ids-segment slot built in `vdb_storage_append`:
`memset` to zero, then `vdb_id_copy` (a `strncpy` of at most 63 bytes plus
forced NUL termination). -/
def idSlot (id : List Byte) : List Byte :=
  let s := (cstr id).take (ID_MAX_LEN - 1)
  s ++ List.replicate (ID_MAX_LEN - s.length) 0

/-- The length-prefixed metadata-segment record: `u32` length then bytes. -/
def mdRecord (md : Option (List Byte)) : List Byte :=
  u32le (mdBytes md).length ++ mdBytes md

/-- `vdb_item_t` (storage.h).  `id` holds the bytes of the embedded
`vdb_id_t` array (a `char[64]`, never NULL); `vec` holds `vector.data` as
32-bit patterns with `vector.dim = dim`; `metadata` is the nullable string. -/
structure Item where
  id : List Byte
  dim : Nat
  vec : List Nat
  metadata : Option (List Byte)
deriving DecidableEq, Repr

/-- The four files owned by one open `vdb_storage_t` handle. -/
structure Seg where
  emb : List Byte
  ids : List Byte
  md : List Byte
  wal : List Byte
deriving DecidableEq, Repr

/-- In-memory fields of `struct vdb_storage` relevant to the claims. -/
structure Storage where
  dim : Nat
  metric : Int
  count : Nat
deriving DecidableEq, Repr

/-- Observable I/O steps of `vdb_storage_append`, in the order the code
attempts them (used to state the durability-ordering claim). -/
inductive Ev where
  | walHdrW | walIdW | walVecW | walMdW | walFsync
  | embW | idsW | mdLenW | mdW
  | embFsync | idsFsync | mdFsync
  | countInc | walTrunc
deriving DecidableEq, Repr

/-- Outcomes the OS hands to one `vdb_storage_append` call. -/
structure AppendEnv where
  walHdr : Option Nat
  walId : Option Nat
  walVec : Option Nat
  walMd : Option Nat
  walSyncFail : Bool
  embWrite : Option Nat
  idsWrite : Option Nat
  mdLenWrite : Option Nat
  mdWrite : Option Nat
  embSyncFail : Bool
  idsSyncFail : Bool
  mdSyncFail : Bool
  walTruncFail : Bool
deriving DecidableEq, Repr

/-- Environment in which every OS call succeeds. -/
def AppendEnv.allOk : AppendEnv :=
  ⟨none, none, none, none, false, none, none, none, none, false, false, false, false⟩

/-- One `write(fd, bytes, len)` call on an append-mode file: on outcome
`none` all bytes are appended; on `some k` only the first `k` bytes land and
the call counts as failed exactly when fewer than `len` bytes were written
(the C code compares the return value against the requested size). -/
def doWrite (file : List Byte) (r : Option Nat) (bytes : List Byte) :
    List Byte × Bool :=
  match r with
  | none => (file ++ bytes, true)
  | some k => (file ++ bytes.take k, decide (bytes.length ≤ k))

/-- Whether a `write` outcome is a failure for an intended size `len`. -/
def wfails (r : Option Nat) (len : Nat) : Bool :=
  match r with
  | none => false
  | some k => decide (k < len)

/-- The packed `wal_record_header_t` for one append of `item`: type byte
`WAL_RECORD_APPEND = 1`, then `id_len`, `vector_dim`, `metadata_len` as
little-endian `u32`s (13 bytes total, `__attribute__((packed))`). -/
def walHeaderBytes (item : Item) : List Byte :=
  [1] ++ u32le (cstr item.id).length ++ u32le item.dim
      ++ u32le (mdBytes item.metadata).length

/-- The header followed by the id bytes, the raw vector bytes and the
metadata bytes: the full WAL record for one append. -/
def walRecordBytes (item : Item) : List Byte :=
  walHeaderBytes item ++ cstr item.id ++ vecBytes item.vec
    ++ mdBytes item.metadata

/-- `write_wal_record` (storage.c): header, id, vector, metadata (the last
only when non-empty), then `fsync`; the first short write or the fsync
failure returns `VDB_ERROR_IO`. -/
def write_wal_record (wal : List Byte) (item : Item) (env : AppendEnv) :
    Status × List Byte × List Ev :=
  let idb := cstr item.id
  let mdb := mdBytes item.metadata
  let hdr := walHeaderBytes item
  let r1 := doWrite wal env.walHdr hdr
  if !r1.2 then (.ioError, r1.1, [.walHdrW]) else
  let r2 := doWrite r1.1 env.walId idb
  if !r2.2 then (.ioError, r2.1, [.walHdrW, .walIdW]) else
  let r3 := doWrite r2.1 env.walVec (vecBytes item.vec)
  if !r3.2 then (.ioError, r3.1, [.walHdrW, .walIdW, .walVecW]) else
  if mdb.length > 0 then
    let r4 := doWrite r3.1 env.walMd mdb
    if !r4.2 then (.ioError, r4.1, [.walHdrW, .walIdW, .walVecW, .walMdW]) else
    if env.walSyncFail then
      (.ioError, r4.1, [.walHdrW, .walIdW, .walVecW, .walMdW, .walFsync])
    else (.ok, r4.1, [.walHdrW, .walIdW, .walVecW, .walMdW, .walFsync])
  else
    if env.walSyncFail then
      (.ioError, r3.1, [.walHdrW, .walIdW, .walVecW, .walFsync])
    else (.ok, r3.1, [.walHdrW, .walIdW, .walVecW, .walFsync])

/-- Steps 2–7 of `vdb_storage_append` (storage.c), entered once the WAL
record is durable: the embeddings write (`storage->dim * 4` bytes), the
fixed 64-byte id slot, the metadata length prefix and — when non-empty —
the metadata bytes; the three segment fsyncs in short-circuit order; the
in-memory count increment; finally the best-effort `ftruncate` of the WAL
whose failure is ignored.  `evs` is the trace accumulated by step 1. -/
def append_segments (s : Storage) (item : Item) (g : Seg) (env : AppendEnv)
    (evs : List Ev) : Status × Storage × Seg × List Ev :=
  let re := doWrite g.emb env.embWrite (vecBytes item.vec)
  let g := { g with emb := re.1 }
  if !re.2 then (.ioError, s, g, evs ++ [.embW]) else
  let ri := doWrite g.ids env.idsWrite (idSlot item.id)
  let g := { g with ids := ri.1 }
  if !ri.2 then (.ioError, s, g, evs ++ [.embW, .idsW]) else
  let mdlen := (mdBytes item.metadata).length
  let rl := doWrite g.md env.mdLenWrite (u32le mdlen)
  let g := { g with md := rl.1 }
  if !rl.2 then (.ioError, s, g, evs ++ [.embW, .idsW, .mdLenW]) else
  let rm :=
    if mdlen > 0 then doWrite g.md env.mdWrite (mdBytes item.metadata)
    else (g.md, true)
  let g := { g with md := rm.1 }
  let sevs := [Ev.embW, .idsW, .mdLenW]
    ++ (if mdlen > 0 then [Ev.mdW] else [])
  if !rm.2 then (.ioError, s, g, evs ++ sevs) else
  if env.embSyncFail then (.ioError, s, g, evs ++ sevs ++ [.embFsync]) else
  if env.idsSyncFail then
    (.ioError, s, g, evs ++ sevs ++ [.embFsync, .idsFsync]) else
  if env.mdSyncFail then
    (.ioError, s, g, evs ++ sevs ++ [.embFsync, .idsFsync, .mdFsync]) else
  let s := { s with count := s.count + 1 }
  let evs := evs ++ sevs ++ [Ev.embFsync, .idsFsync, .mdFsync,
    .countInc, .walTrunc]
  if env.walTruncFail then (.ok, s, g, evs)
  else (.ok, s, { g with wal := [] }, evs)

/-- `vdb_storage_append` (storage.c): validate dimension (code returns
`VDB_ERROR_DIMENSION_MISMATCH`) and id; then step 1, the WAL record write
plus fsync; then the segment-and-commit phase `append_segments`. -/
def vdb_storage_append (s : Storage) (item : Item) (g : Seg) (env : AppendEnv) :
    Status × Storage × Seg × List Ev :=
  if item.dim ≠ s.dim then (.dimensionMismatch, s, g, []) else
  if !vdb_id_is_valid (some item.id) then (.invalidArgument, s, g, []) else
  let w := write_wal_record g.wal item env
  let g := { g with wal := w.2.1 }
  if w.1 ≠ .ok then (w.1, s, g, w.2.2) else
  append_segments s item g env w.2.2

/-- Outcomes the OS hands to `recover_from_wal` (the `lseek` size probe and
the `ftruncate`). -/
structure RecoverEnv where
  seekFail : Bool
  truncFail : Bool
deriving DecidableEq, Repr

/-- Environment in which both recovery OS calls succeed. -/
def RecoverEnv.allOk : RecoverEnv := ⟨false, false⟩

/-- `recover_from_wal` (storage.c): probe the WAL size; an empty WAL needs
no recovery; a non-empty WAL is truncated to length zero — the pending
record is discarded, not replayed, and the segments and count are left
untouched. -/
def recover_from_wal (g : Seg) (env : RecoverEnv) : Status × Seg :=
  if env.seekFail then (.ioError, g) else
  if g.wal.length = 0 then (.ok, g) else
  if env.truncFail then (.ioError, g) else
  (.ok, { g with wal := [] })

/-- An item as the iterate visitor observes it: the id string read from the
64-byte slot, the `dim` float32 patterns of one embeddings stride, and the
metadata of one length-prefixed record (`none` when the stored length is 0). -/
structure StoredItem where
  id : List Byte
  vec : List Nat
  metadata : Option (List Byte)
deriving DecidableEq, Repr

/-- Read one little-endian `u32` from a byte stream. -/
def readU32 : List Byte → Option (Nat × List Byte)
  | b0 :: b1 :: b2 :: b3 :: rest =>
    some (b0 + 256 * b1 + 65536 * b2 + 16777216 * b3, rest)
  | _ => none

/-- Read `dim` float32 patterns (4 bytes each) from a byte stream. -/
def readVec : Nat → List Byte → Option (List Nat × List Byte)
  | 0, bs => some ([], bs)
  | d + 1, bs =>
    match readU32 bs with
    | none => none
    | some (v, bs) =>
      match readVec d bs with
      | none => none
      | some (vs, bs) => some (v :: vs, bs)

/-- Modelled from the spec: `vdb_storage_iterate` is declared in
`include/vdb/storage.h` but has no implementation under `src/`.  Following
spec §4.3 `iterate`: starting at offset 0, each step reads one 64-byte id
slot, one `dim`×4-byte embedding stride and one `(u32 length, bytes)`
metadata record in lockstep; a clean simultaneous EOF of all three segments
ends iteration successfully and any partial record is an I/O error.  The
returned list is the sequence of items handed to the visitor, in order. -/
def iterateRecords (dim : Nat) (emb ids md : List Byte) :
    Option (List StoredItem) :=
  if emb = [] ∧ ids = [] ∧ md = [] then some [] else
  if h : ids.length < ID_MAX_LEN then none else
  let slot := ids.take ID_MAX_LEN
  match readVec dim emb with
  | none => none
  | some (vec, emb) =>
    match readU32 md with
    | none => none
    | some (len, md) =>
      if md.length < len then none else
      let it : StoredItem :=
        ⟨slot.takeWhile (fun b => b ≠ 0), vec,
         if len = 0 then none else some (md.take len)⟩
      match iterateRecords dim emb (ids.drop ID_MAX_LEN) (md.drop len) with
      | none => none
      | some rest => some (it :: rest)
termination_by ids.length
decreasing_by
  simp only [List.length_drop, ID_MAX_LEN] at *
  omega

/-- Modelled from the spec: the full `vdb_storage_iterate` over the three
segment files of an open handle (iteration never reads the WAL). -/
def vdb_storage_iterate (s : Storage) (g : Seg) : Option (List StoredItem) :=
  iterateRecords s.dim g.emb g.ids g.md

/-- The decimal digit character for `d < 10`. -/
def digitChar (d : Nat) : Char := Char.ofNat (48 + d)

/-- Decimal rendering of a `Nat`, as `printf` emits it (most significant
digit first, no sign, no padding). -/
def natChars (n : Nat) : List Char :=
  if n < 10 then [digitChar n]
  else natChars (n / 10) ++ [digitChar (n % 10)]
termination_by n
decreasing_by
  exact Nat.div_lt_self (by omega) (by omega)

/-- `printf("%d", i)`: optional minus sign then decimal digits. -/
def intChars (i : Int) : List Char :=
  if i < 0 then '-' :: natChars i.natAbs else natChars i.toNat

/-- The exact text `write_collection_meta` produces with
`fprintf("dimension=%u\n" / "metric=%d\n" / "count=%lu\n")`. -/
def metaChars (dim : Nat) (metric : Int) (count : Nat) : List Char :=
  "dimension=".data ++ natChars dim ++ ['\n']
    ++ "metric=".data ++ intChars metric ++ ['\n']
    ++ "count=".data ++ natChars count ++ ['\n']

/-- `write_collection_meta` (storage.c): `fopen(path, "w")` truncates and
the three lines replace the whole file; an `fopen`/`fclose` failure is
`VDB_ERROR_IO` (modelled as leaving the previous content). -/
def write_collection_meta (fail : Bool) (dim : Nat) (metric : Int)
    (count : Nat) (file : Option (List Char)) : Status × Option (List Char) :=
  if fail then (.ioError, file)
  else (.ok, some (metaChars dim metric count))

/-- C whitespace as `fscanf` skips it (`isspace` in the default locale):
space, tab, newline, carriage return, vertical tab, form feed. -/
def isWS (c : Char) : Bool :=
  c.toNat = 32 || c.toNat = 9 || c.toNat = 10 || c.toNat = 13
    || c.toNat = 11 || c.toNat = 12

/-- ASCII decimal digit test. -/
def isDigitC (c : Char) : Bool := 48 ≤ c.toNat && c.toNat ≤ 57

/-- Ordinary-character directives of an `fscanf` format: each literal
character must match the next input character exactly. -/
def matchLit : List Char → List Char → Option (List Char)
  | [], s => some s
  | _ :: _, [] => none
  | c :: cs, x :: xs => if x = c then matchLit cs xs else none

/-- Accumulate the leading decimal digits of the input. -/
def digitsVal (acc : Nat) : List Char → Nat × List Char
  | [] => (acc, [])
  | c :: rest =>
    if isDigitC c then digitsVal (acc * 10 + (c.toNat - 48)) rest
    else (acc, c :: rest)

/-- An `fscanf` `%u`/`%lu` conversion on the values this program writes:
skip leading whitespace, then require at least one digit.  (The C
conversion also accepts a sign with unsigned wraparound; such inputs are
never produced by `write_collection_meta` and are outside the model.) -/
def parseUInt (s : List Char) : Option (Nat × List Char) :=
  let s1 := s.dropWhile isWS
  match s1 with
  | [] => none
  | c :: _ => if isDigitC c then some (digitsVal 0 s1) else none

/-- An `fscanf` `%d` conversion: skip leading whitespace, optional minus
sign, then at least one digit. -/
def parseInt (s : List Char) : Option (Int × List Char) :=
  let s1 := s.dropWhile isWS
  match s1 with
  | [] => none
  | c :: rest =>
    if c = '-' then
      match rest with
      | [] => none
      | d :: _ =>
        if isDigitC d then
          let r := digitsVal 0 rest
          some (-(r.1 : Int), r.2)
        else none
    else if isDigitC c then
      let r := digitsVal 0 s1
      some ((r.1 : Int), r.2)
    else none

/-- `read_collection_meta` (storage.c): an absent file is `NotFound`;
`fscanf("dimension=%u\nmetric=%d\ncount=%lu\n")` must convert all three
fields (a `\n` directive consumes any whitespace run) or the file is
`Corrupted`; finally `dim` and `metric` are validated against the same
bounds as collection validation. -/
def read_collection_meta (file : Option (List Char)) :
    Except Status (Nat × Int × Nat) :=
  match file with
  | none => .error .notFound
  | some s =>
    match matchLit "dimension=".data s with
    | none => .error .corrupted
    | some s =>
      match parseUInt s with
      | none => .error .corrupted
      | some (dim, s) =>
        match matchLit "metric=".data (s.dropWhile isWS) with
        | none => .error .corrupted
        | some s =>
          match parseInt s with
          | none => .error .corrupted
          | some (metric, s) =>
            match matchLit "count=".data (s.dropWhile isWS) with
            | none => .error .corrupted
            | some s =>
              match parseUInt s with
              | none => .error .corrupted
              | some (count, _) =>
                if dim = 0 || dim > MAX_DIM || !vdb_metric_is_valid metric
                then .error .corrupted
                else .ok (dim, metric, count)

/-- `strnlen(bs, maxlen)`: length of the string content, capped at the
bound (the cap is what the code sees when no terminator occurs in time). -/
def strnlenB (bs : List Byte) (maxlen : Nat) : Nat := min (cstr bs).length maxlen

/-- `vdb_collection_validate_params` (collection.c, `src/unnamed/part_001`):
non-NULL non-empty name, `strnlen(name, 64) < 64`, printable name bytes,
`1 ≤ dim ≤ 65536`, valid metric; every failure is `InvalidArgument`. -/
def vdb_collection_validate_params (name : Option (List Byte)) (dim : Nat)
    (metric : Int) : Status :=
  match name with
  | none => .invalidArgument
  | some nb =>
    if nb.headD 0 = 0 then .invalidArgument
    else if NAME_MAX_LEN ≤ strnlenB nb NAME_MAX_LEN then .invalidArgument
    else if !((cstr nb).all isprint) then .invalidArgument
    else if dim = 0 || dim > MAX_DIM then .invalidArgument
    else if !vdb_metric_is_valid metric then .invalidArgument
    else .ok

/-- Directory-level on-disk state of one collection: whether
`<base_dir>/<name>` exists, the `collection.meta` content, and the four
member files (`none` while the directory has never been populated). -/
structure Disk where
  collDirExists : Bool
  meta : Option (List Char)
  seg : Option Seg
deriving DecidableEq, Repr

/-- Outcomes the OS hands to one `vdb_storage_create` call. -/
structure CreateEnv where
  mkdirBaseFail : Bool
  mkdirCollFail : Bool
  metaWriteFail : Bool
  allocFail : Bool
  embOpenFail : Bool
  idsOpenFail : Bool
  mdOpenFail : Bool
  walOpenFail : Bool
  recEnv : RecoverEnv
deriving DecidableEq, Repr

/-- Environment in which every OS call of create succeeds. -/
def CreateEnv.allOk : CreateEnv :=
  ⟨false, false, false, false, false, false, false, false, RecoverEnv.allOk⟩

/-- `open_segment_files` (storage.c): open the three segments and the WAL
with `O_CREAT` (absent files are created empty); on any failure the
already-opened descriptors are closed — a no-op on disk state — and
`VDB_ERROR_IO` is returned. -/
def open_segment_files (env : CreateEnv) (existing : Option Seg) :
    Except Status Seg :=
  if env.embOpenFail then .error .ioError
  else if env.idsOpenFail then .error .ioError
  else if env.mdOpenFail then .error .ioError
  else if env.walOpenFail then .error .ioError
  else .ok (existing.getD ⟨[], [], [], []⟩)

/-- `vdb_storage_create` (storage.c): validate, check existence, create the
directory tree, write the initial metadata (count 0), allocate the handle,
open the member files, run WAL recovery; no failure path removes anything
already created on disk. -/
def vdb_storage_create (name : Option (List Byte)) (dim : Nat) (metric : Int)
    (fs : Disk) (env : CreateEnv) : Status × Disk × Option Storage :=
  let st := vdb_collection_validate_params name dim metric
  if st ≠ .ok then (st, fs, none) else
  if fs.collDirExists then (.alreadyExists, fs, none) else
  if env.mkdirBaseFail then (.ioError, fs, none) else
  if env.mkdirCollFail then (.ioError, fs, none) else
  let fs : Disk := ⟨true, none, none⟩
  if env.metaWriteFail then (.ioError, fs, none) else
  let fs : Disk := { fs with meta := some (metaChars dim metric 0) }
  if env.allocFail then (.outOfMemory, fs, none) else
  match open_segment_files env fs.seg with
  | .error e => (e, fs, none)
  | .ok g =>
    let fs : Disk := { fs with seg := some g }
    let r := recover_from_wal g env.recEnv
    if r.1 ≠ .ok then (r.1, fs, none) else
    (.ok, { fs with seg := some r.2 }, some ⟨dim, metric, 0⟩)

/-- `vdb_storage_close` (storage.c): a `void` function — it closes the
descriptors, rewrites `collection.meta` with the final count and frees the
handle; the status of `write_collection_meta` is discarded, so a failed
final metadata write leaves the previous file content with no error
surfaced to the caller. -/
def vdb_storage_close (fs : Disk) (s : Storage) (metaWriteFail : Bool) : Disk :=
  let w := write_collection_meta metaWriteFail s.dim s.metric s.count fs.meta
  { fs with meta := w.2 }

/-- `vdb_storage_count` (declared in storage.h): the in-memory count. -/
def vdb_storage_count (s : Storage) : Nat := s.count

/-! ### Derived notions used by the claim statements -/

/-- A well-typed append argument: the C types guarantee `vector.data` holds
`vector.dim` float32 patterns (each below `2^32`) and `strlen(metadata)`
fits the `u32` WAL/segment length fields; `itemWF` additionally packages
the two validations `vdb_storage_append` itself performs. -/
def itemWF (dim : Nat) (it : Item) : Bool :=
  it.dim == dim && vdb_id_is_valid (some it.id)
    && it.vec.length == it.dim
    && it.vec.all (fun v => v < 4294967296)
    && decide ((mdBytes it.metadata).length < 4294967296)

/-- Embeddings-segment content produced by appending `items` in order. -/
def embEnc (items : List Item) : List Byte :=
  (items.map fun it => vecBytes it.vec).flatten

/-- Ids-segment content produced by appending `items` in order. -/
def idsEnc (items : List Item) : List Byte :=
  (items.map fun it => idSlot it.id).flatten

/-- Metadata-segment content produced by appending `items` in order. -/
def mdEnc (items : List Item) : List Byte :=
  (items.map fun it => mdRecord it.metadata).flatten

/-- The item the iterate visitor observes for an appended item: the id
string, the same float32 patterns, and the same metadata bytes (a stored
length of 0 reads back as absent metadata). -/
def storedOf (it : Item) : StoredItem :=
  ⟨cstr it.id, it.vec,
   if mdBytes it.metadata = [] then none else some (mdBytes it.metadata)⟩

/-- Append a sequence of items on one handle, every OS call succeeding. -/
def appendSeq : Storage → Seg → List Item → Storage × Seg
  | s, g, [] => (s, g)
  | s, g, it :: rest =>
    let r := vdb_storage_append s it g AppendEnv.allOk
    appendSeq r.2.1 r.2.2.1 rest

/-- The I/O schedule of a successful step 1 (WAL phase) for `it`: the
header, id, vector and — when non-empty — metadata writes, then the fsync. -/
def walTraceOk (it : Item) : List Ev :=
  [.walHdrW, .walIdW, .walVecW]
    ++ (if (mdBytes it.metadata).length > 0 then [Ev.walMdW] else [])
    ++ [.walFsync]

/-- The I/O schedule of a successful segment-and-commit phase for `it`. -/
def segTraceOk (it : Item) : List Ev :=
  [.embW, .idsW, .mdLenW]
    ++ (if (mdBytes it.metadata).length > 0 then [Ev.mdW] else [])
    ++ [.embFsync, .idsFsync, .mdFsync, .countInc, .walTrunc]

/-- The full ordered I/O schedule of one successful append of `it`: WAL
record write and fsync, the three segment appends, the three segment
fsyncs, the count increment, the WAL truncate. -/
def appendTrace (it : Item) : List Ev := walTraceOk it ++ segTraceOk it

/-- Whether `env` makes some step-(1) write/fsync (the WAL record or its
fsync) or step-(2) write/fsync (a segment append or its fsync) of an append
of `it` fail.  The two conditional entries are the metadata-bytes writes,
attempted only when the item carries non-empty metadata. -/
def step12Fails (env : AppendEnv) (it : Item) : Bool :=
  wfails env.walHdr (walHeaderBytes it).length
    || wfails env.walId (cstr it.id).length
    || wfails env.walVec (vecBytes it.vec).length
    || ((mdBytes it.metadata).length > 0
          && wfails env.walMd (mdBytes it.metadata).length)
    || env.walSyncFail
    || wfails env.embWrite (vecBytes it.vec).length
    || wfails env.idsWrite (idSlot it.id).length
    || wfails env.mdLenWrite (u32le (mdBytes it.metadata).length).length
    || ((mdBytes it.metadata).length > 0
          && wfails env.mdWrite (mdBytes it.metadata).length)
    || env.embSyncFail || env.idsSyncFail || env.mdSyncFail

/-- Whether `env` makes some step-(2) write or fsync (the segment phase)
of an append of `it` fail. -/
def segPhaseFails (env : AppendEnv) (it : Item) : Bool :=
  wfails env.embWrite (vecBytes it.vec).length
    || wfails env.idsWrite (idSlot it.id).length
    || wfails env.mdLenWrite (u32le (mdBytes it.metadata).length).length
    || ((mdBytes it.metadata).length > 0
          && wfails env.mdWrite (mdBytes it.metadata).length)
    || env.embSyncFail || env.idsSyncFail || env.mdSyncFail

/-- Whether `env` lets the whole WAL phase (step 1) of an append of `it`
succeed: all record writes land in full and the WAL fsync succeeds. -/
def walPhaseOk (env : AppendEnv) (it : Item) : Bool :=
  !wfails env.walHdr (walHeaderBytes it).length
    && !wfails env.walId (cstr it.id).length
    && !wfails env.walVec (vecBytes it.vec).length
    && !((mdBytes it.metadata).length > 0
          && wfails env.walMd (mdBytes it.metadata).length)
    && !env.walSyncFail

end VDB

namespace VDB

lemma doWrite_eq (f : List Byte) (r : Option Nat) (bytes : List Byte) :
    doWrite f r bytes
      = (f ++ bytes.take (r.getD bytes.length), !wfails r bytes.length) := by
  cases r with
  | none => simp [doWrite, wfails]
  | some k =>
    simp only [doWrite, wfails, Option.getD]
    congr 1
    rw [← decide_not]
    exact decide_eq_decide.mpr (by omega)

lemma take_of_wfails_false (bytes : List Byte) (r : Option Nat)
    (h : wfails r bytes.length = false) :
    bytes.take (r.getD bytes.length) = bytes := by
  cases r with
  | none => simp
  | some k =>
    simp only [wfails, decide_eq_false_iff_not, Nat.not_lt] at h
    simp [List.take_of_length_le h]

lemma walHeader_length (it : Item) : (walHeaderBytes it).length = 13 := by
  simp [walHeaderBytes, u32le]

lemma write_wal_status (w : List Byte) (it : Item) (env : AppendEnv) :
    (write_wal_record w it env).1
      = (if walPhaseOk env it then Status.ok else .ioError) := by
  simp only [write_wal_record, doWrite_eq, Bool.not_not, walPhaseOk]
  split_ifs <;> simp_all

lemma write_wal_ok (w : List Byte) (it : Item) (env : AppendEnv)
    (h : walPhaseOk env it = true) :
    write_wal_record w it env =
      (.ok, w ++ walRecordBytes it, walTraceOk it) := by
  simp only [walPhaseOk, Bool.and_eq_true, Bool.not_eq_true'] at h
  obtain ⟨⟨⟨⟨h1, h2⟩, h3⟩, h4⟩, h5⟩ := h
  simp only [write_wal_record, doWrite_eq, Bool.not_not]
  by_cases hmd : (mdBytes it.metadata).length > 0
  · have h4' : wfails env.walMd (mdBytes it.metadata).length = false := by
      simpa [hmd] using h4
    simp [hmd, h1, h2, h3, h4', h5, take_of_wfails_false, walRecordBytes,
      walTraceOk, List.append_assoc]
  · have h0 : mdBytes it.metadata = [] :=
      List.eq_nil_of_length_eq_zero (by omega)
    simp [hmd, h1, h2, h3, h5, take_of_wfails_false, walRecordBytes, h0,
      walTraceOk, List.append_assoc]

set_option maxHeartbeats 2000000 in
lemma seg_ok (s : Storage) (it : Item) (g : Seg) (env : AppendEnv)
    (evs : List Ev) (h : segPhaseFails env it = false) :
    append_segments s it g env evs =
      (.ok, ⟨s.dim, s.metric, s.count + 1⟩,
       ⟨g.emb ++ vecBytes it.vec, g.ids ++ idSlot it.id,
        g.md ++ mdRecord it.metadata,
        if env.walTruncFail then g.wal else []⟩,
       evs ++ segTraceOk it) := by
  simp only [segPhaseFails, Bool.or_eq_false_iff] at h
  obtain ⟨⟨⟨⟨⟨⟨h6, h7⟩, h8⟩, h9⟩, h10⟩, h11⟩, h12⟩ := h
  simp only [append_segments, doWrite_eq, Bool.not_not]
  by_cases hmd : (mdBytes it.metadata).length > 0
  · have h9' : wfails env.mdWrite (mdBytes it.metadata).length = false := by
      simpa [hmd] using h9
    simp [hmd, h6, h7, h8, h9', h10, h11, h12, take_of_wfails_false,
      mdRecord, segTraceOk, List.append_assoc]
    by_cases ht : env.walTruncFail = true <;> simp [ht]
  · have h0 : mdBytes it.metadata = [] :=
      List.eq_nil_of_length_eq_zero (by omega)
    have h8' : wfails env.mdLenWrite (u32le 0).length = false := by
      simpa [h0] using h8
    simp [hmd, h6, h7, h8', h10, h11, h12, take_of_wfails_false,
      mdRecord, segTraceOk, List.append_assoc, h0]
    by_cases ht : env.walTruncFail = true <;> simp [ht]

set_option maxHeartbeats 2000000 in
lemma seg_fail (s : Storage) (it : Item) (g : Seg) (env : AppendEnv)
    (evs : List Ev) (h : segPhaseFails env it = true) :
    (append_segments s it g env evs).1 = .ioError ∧
      (append_segments s it g env evs).2.1 = s ∧
      (append_segments s it g env evs).2.2.1.wal = g.wal := by
  simp only [append_segments, doWrite_eq, Bool.not_not]
  by_cases hmd : (mdBytes it.metadata).length > 0
  · simp only [segPhaseFails, hmd, decide_eq_true_eq, Bool.or_eq_true,
      Bool.and_eq_true] at h
    simp only [hmd, if_true]
    split_ifs <;> first
      | exact ⟨rfl, rfl, rfl⟩
      | (exfalso
         rcases h with ((((((a | a) | a) | ⟨-, a⟩) | a) | a) | a) <;> simp_all)
  · simp only [segPhaseFails, Bool.or_eq_true, Bool.and_eq_true,
      decide_eq_true_eq] at h
    have h2 : wfails env.embWrite (vecBytes it.vec).length = true
        ∨ wfails env.idsWrite (idSlot it.id).length = true
        ∨ wfails env.mdLenWrite
            (u32le (mdBytes it.metadata).length).length = true
        ∨ env.embSyncFail = true ∨ env.idsSyncFail = true
        ∨ env.mdSyncFail = true := by
      rcases h with ((((((a | a) | a) | ⟨b, a⟩) | a) | a) | a) <;>
        first | exact absurd b hmd | tauto
    clear h
    simp only [hmd, if_false]
    split_ifs <;> first
      | exact ⟨rfl, rfl, rfl⟩
      | (exfalso
         rcases h2 with (a | a | a | a | a | a) <;> simp_all)

end VDB

/-! ### Lemmas about one append call -/

namespace VDB

lemma step12_decomp (env : AppendEnv) (it : Item) :
    step12Fails env it = (!walPhaseOk env it || segPhaseFails env it) := by
  simp only [step12Fails, walPhaseOk, segPhaseFails]
  generalize wfails env.walHdr (walHeaderBytes it).length = a1
  generalize wfails env.walId (cstr it.id).length = a2
  generalize wfails env.walVec (vecBytes it.vec).length = a3
  generalize (decide ((mdBytes it.metadata).length > 0)
    && wfails env.walMd (mdBytes it.metadata).length) = a4
  generalize env.walSyncFail = a5
  generalize wfails env.embWrite (vecBytes it.vec).length = a6
  generalize wfails env.idsWrite (idSlot it.id).length = a7
  generalize wfails env.mdLenWrite
    (u32le (mdBytes it.metadata).length).length = a8
  generalize (decide ((mdBytes it.metadata).length > 0)
    && wfails env.mdWrite (mdBytes it.metadata).length) = a9
  generalize env.embSyncFail = a10
  generalize env.idsSyncFail = a11
  generalize env.mdSyncFail = a12
  revert a1 a2 a3 a4 a5 a6 a7 a8 a9 a10 a11 a12
  decide

lemma append_success (s : Storage) (it : Item) (g : Seg) (env : AppendEnv)
    (hdim : it.dim = s.dim) (hid : vdb_id_is_valid (some it.id) = true)
    (h12 : step12Fails env it = false) :
    vdb_storage_append s it g env =
      (.ok, ⟨s.dim, s.metric, s.count + 1⟩,
       ⟨g.emb ++ vecBytes it.vec, g.ids ++ idSlot it.id,
        g.md ++ mdRecord it.metadata,
        if env.walTruncFail then g.wal ++ walRecordBytes it else []⟩,
       appendTrace it) := by
  rw [step12_decomp] at h12
  simp only [Bool.or_eq_false_iff, Bool.not_eq_false'] at h12
  obtain ⟨hw, hseg⟩ := h12
  simp only [vdb_storage_append, hdim, hid, ne_eq, not_true_eq_false,
    Bool.not_eq_true', write_wal_ok g.wal it env hw,
    seg_ok s it _ env _ hseg, appendTrace]
  simp

lemma append_step12_effect (s : Storage) (it : Item) (g : Seg)
    (env : AppendEnv) (hdim : it.dim = s.dim)
    (hid : vdb_id_is_valid (some it.id) = true)
    (h : step12Fails env it = true) :
    (vdb_storage_append s it g env).1 = .ioError ∧
      (vdb_storage_append s it g env).2.1 = s := by
  by_cases hw : walPhaseOk env it = true
  · rw [step12_decomp, hw] at h
    simp only [Bool.not_true, Bool.false_or] at h
    have hsf := seg_fail s it
      (⟨g.emb, g.ids, g.md, g.wal ++ walRecordBytes it⟩ : Seg) env
      (walTraceOk it) h
    simp only [vdb_storage_append, hdim, hid, ne_eq, not_true_eq_false,
      Bool.not_eq_true', write_wal_ok g.wal it env hw]
    exact ⟨hsf.1, hsf.2.1⟩
  · have hwf : walPhaseOk env it = false := by
      revert hw; cases walPhaseOk env it <;> simp
    have hst := write_wal_status g.wal it env
    rw [hwf] at hst
    simp at hst
    simp only [vdb_storage_append, hdim, hid, ne_eq, not_true_eq_false,
      Bool.not_eq_true', hst]
    exact ⟨rfl, rfl⟩

lemma append_wal_of_ioError (s : Storage) (it : Item) (g : Seg)
    (env : AppendEnv) (hdim : it.dim = s.dim)
    (hid : vdb_id_is_valid (some it.id) = true)
    (hw : walPhaseOk env it = true)
    (h : (vdb_storage_append s it g env).1 = .ioError) :
    (vdb_storage_append s it g env).2.2.1.wal
      = g.wal ++ walRecordBytes it := by
  by_cases hseg : segPhaseFails env it = true
  · have hsf := seg_fail s it
      (⟨g.emb, g.ids, g.md, g.wal ++ walRecordBytes it⟩ : Seg) env
      (walTraceOk it) hseg
    simp only [vdb_storage_append, hdim, hid, ne_eq, not_true_eq_false,
      Bool.not_eq_true', write_wal_ok g.wal it env hw]
    simpa using hsf.2.2
  · have h12 : step12Fails env it = false := by
      rw [step12_decomp, hw]
      simp only [Bool.not_true, Bool.false_or]
      revert hseg; cases segPhaseFails env it <;> simp
    rw [append_success s it g env hdim hid h12] at h
    simp at h

end VDB

namespace VDB

lemma takeWhile_cons_ne (b : Byte) (rest : List Byte) (hb : ¬b = 0) :
    (b :: rest).takeWhile (fun x => x ≠ 0)
      = b :: rest.takeWhile (fun x => x ≠ 0) := by
  simp [List.takeWhile_cons, hb]

lemma takeWhile_cons_zero (rest : List Byte) :
    ((0 : Byte) :: rest).takeWhile (fun x => x ≠ 0) = [] := by
  simp [List.takeWhile_cons]

lemma idValidLoop_facts (bs : List Byte) (fuel : Nat)
    (h : idValidLoop bs fuel = true) :
    (bs.takeWhile (fun b => b ≠ 0)).length < fuel ∧
      ∀ b ∈ bs.takeWhile (fun b => b ≠ 0), isprint b = true := by
  induction bs generalizing fuel with
  | nil => cases fuel <;> simp [idValidLoop] at h
  | cons b rest ih =>
    cases fuel with
    | zero => simp [idValidLoop] at h
    | succ fuel =>
      by_cases hb : b = 0
      · subst hb
        simp [takeWhile_cons_zero]
      · simp only [idValidLoop, hb, if_false] at h
        by_cases hp : isprint b = true
        · simp only [hp, if_true] at h
          obtain ⟨h1, h2⟩ := ih fuel h
          rw [takeWhile_cons_ne b rest hb]
          refine ⟨Nat.succ_lt_succ h1, ?_⟩
          intro x hx
          rcases List.mem_cons.mp hx with hx | hx
          · subst hx; exact hp
          · exact h2 x hx
        · simp [hp] at h

lemma id_valid_facts (bs : List Byte)
    (h : vdb_id_is_valid (some bs) = true) :
    (cstr bs).length ≤ ID_MAX_LEN - 1 ∧ cstr bs ≠ [] ∧
      ∀ b ∈ cstr bs, isprint b = true := by
  match bs with
  | [] => simp [vdb_id_is_valid] at h
  | b :: rest =>
    simp only [vdb_id_is_valid] at h
    by_cases hb : b = 0
    · simp [hb] at h
    · simp only [hb, if_false] at h
      obtain ⟨h1, h2⟩ := idValidLoop_facts (b :: rest) ID_MAX_LEN h
      refine ⟨?_, ?_, h2⟩
      · simp only [cstr, ID_MAX_LEN] at h1 ⊢
        omega
      · rw [cstr, takeWhile_cons_ne b rest hb]
        simp

lemma mem_takeWhile_pred (p : Byte → Bool) (l : List Byte) (b : Byte)
    (hb : b ∈ l.takeWhile p) : p b = true := by
  induction l with
  | nil => simp [List.takeWhile] at hb
  | cons x xs ih =>
    rw [List.takeWhile_cons] at hb
    by_cases hx : p x = true
    · simp only [hx, if_true, List.mem_cons] at hb
      rcases hb with hb | hb
      · subst hb; exact hx
      · exact ih hb
    · simp [hx] at hb

lemma cstr_no_zero (bs : List Byte) : ∀ b ∈ cstr bs, b ≠ 0 := by
  intro b hb
  simp only [cstr] at hb
  have hp := mem_takeWhile_pred (fun x => decide (x ≠ 0)) bs b hb
  simpa using hp

end VDB

/-! ### Id validity, slot and sequence lemmas -/

namespace VDB

lemma idSlot_length (id : List Byte) : (idSlot id).length = ID_MAX_LEN := by
  simp only [idSlot, List.length_append, List.length_replicate]
  have : ((cstr id).take (ID_MAX_LEN - 1)).length ≤ ID_MAX_LEN - 1 := by
    simp [List.length_take]
  simp only [ID_MAX_LEN] at *
  omega

lemma idSlot_of_valid (id : List Byte)
    (h : vdb_id_is_valid (some id) = true) :
    idSlot id = cstr id ++ List.replicate (ID_MAX_LEN - (cstr id).length) 0 := by
  obtain ⟨hlen, -, -⟩ := id_valid_facts id h
  simp only [idSlot]
  rw [List.take_of_length_le (by simp only [ID_MAX_LEN] at *; omega)]

lemma takeWhile_append_zeros (xs : List Byte) (k : Nat)
    (h : ∀ x ∈ xs, x ≠ 0) (hk : 0 < k) :
    (xs ++ List.replicate k 0).takeWhile (fun b => b ≠ 0) = xs := by
  induction xs with
  | nil =>
    cases k with
    | zero => omega
    | succ k => simp [List.replicate_succ, takeWhile_cons_zero]
  | cons x xs ih =>
    have hx : ¬x = 0 := h x (by simp)
    rw [List.cons_append, takeWhile_cons_ne x _ hx,
      ih (fun y hy => h y (by simp [hy]))]

lemma idSlot_takeWhile (id : List Byte)
    (h : vdb_id_is_valid (some id) = true) :
    (idSlot id).takeWhile (fun b => b ≠ 0) = cstr id := by
  obtain ⟨hlen, -, -⟩ := id_valid_facts id h
  rw [idSlot_of_valid id h]
  exact takeWhile_append_zeros _ _ (cstr_no_zero id)
    (by simp only [ID_MAX_LEN] at *; omega)

lemma step12_allOk (it : Item) : step12Fails AppendEnv.allOk it = false := by
  simp [step12Fails, AppendEnv.allOk, wfails]

lemma appendSeq_eq (items : List Item) (s : Storage) (g : Seg)
    (h : ∀ it ∈ items, itemWF s.dim it = true) (hwal : g.wal = []) :
    appendSeq s g items
      = (⟨s.dim, s.metric, s.count + items.length⟩,
         ⟨g.emb ++ embEnc items, g.ids ++ idsEnc items,
          g.md ++ mdEnc items, []⟩) := by
  induction items generalizing s g with
  | nil =>
    simp only [appendSeq, embEnc, idsEnc, mdEnc, List.map_nil,
      List.flatten_nil, List.append_nil, List.length_nil, Nat.add_zero]
    rw [← hwal]
  | cons it rest ih =>
    have hwf := h it (by simp)
    simp only [itemWF, Bool.and_eq_true, beq_iff_eq, decide_eq_true_eq] at hwf
    obtain ⟨⟨⟨⟨hd, hidv⟩, hvl⟩, hvals⟩, hmdl⟩ := hwf
    simp only [appendSeq]
    rw [append_success s it g AppendEnv.allOk hd hidv (step12_allOk it)]
    simp only [AppendEnv.allOk, Bool.false_eq_true, if_false]
    rw [ih ⟨s.dim, s.metric, s.count + 1⟩
      (⟨g.emb ++ vecBytes it.vec, g.ids ++ idSlot it.id,
        g.md ++ mdRecord it.metadata, []⟩ : Seg)
      (by intro x hx; exact h x (by simp [hx])) rfl]
    simp [embEnc, idsEnc, mdEnc, List.append_assoc]
    omega

end VDB

namespace VDB

lemma readU32_u32le (n : Nat) (rest : List Byte) (h : n < 4294967296) :
    readU32 (u32le n ++ rest) = some (n, rest) := by
  simp only [u32le, List.cons_append, List.nil_append, readU32]
  congr 2
  omega

lemma readVec_enc (vec : List Nat) (rest : List Byte)
    (hv : ∀ v ∈ vec, v < 4294967296) :
    readVec vec.length (vecBytes vec ++ rest) = some (vec, rest) := by
  induction vec with
  | nil => simp [vecBytes, readVec]
  | cons v vs ih =>
    have hstep : vecBytes (v :: vs) = u32le v ++ vecBytes vs := by
      simp [vecBytes]
    rw [List.length_cons, hstep, List.append_assoc]
    simp only [readVec]
    rw [readU32_u32le v _ (hv v (by simp))]
    dsimp only
    rw [ih (fun x hx => hv x (by simp [hx]))]

lemma readVec_enc2 (dim : Nat) (vec : List Nat) (rest : List Byte)
    (hlen : vec.length = dim) (hv : ∀ v ∈ vec, v < 4294967296) :
    readVec dim (vecBytes vec ++ rest) = some (vec, rest) := by
  subst hlen
  exact readVec_enc vec rest hv

lemma iterate_enc (dim : Nat) (items : List Item)
    (h : ∀ it ∈ items, itemWF dim it = true) :
    iterateRecords dim (embEnc items) (idsEnc items) (mdEnc items)
      = some (items.map storedOf) := by
  induction items with
  | nil =>
    rw [iterateRecords]
    simp [embEnc, idsEnc, mdEnc]
  | cons it rest ih =>
    have hwf := h it (by simp)
    simp only [itemWF, Bool.and_eq_true, beq_iff_eq, decide_eq_true_eq] at hwf
    obtain ⟨⟨⟨⟨hd, hidv⟩, hvl⟩, hvals⟩, hmdl⟩ := hwf
    have hids : idsEnc (it :: rest) = idSlot it.id ++ idsEnc rest := by
      simp [idsEnc]
    have hlen : (idsEnc (it :: rest)).length
        = ID_MAX_LEN + (idsEnc rest).length := by
      rw [hids]; simp [idSlot_length]
    have hemb : embEnc (it :: rest) = vecBytes it.vec ++ embEnc rest := by
      simp [embEnc]
    have hmd : mdEnc (it :: rest)
        = u32le (mdBytes it.metadata).length
          ++ (mdBytes it.metadata ++ mdEnc rest) := by
      simp [mdEnc, mdRecord, List.append_assoc]
    rw [iterateRecords]
    rw [if_neg (by
      rintro ⟨-, h2, -⟩
      rw [h2] at hlen
      simp only [List.length_nil, ID_MAX_LEN] at hlen
      omega)]
    rw [dif_neg (by simp only [hlen, ID_MAX_LEN]; omega)]
    rw [hemb, readVec_enc2 dim it.vec (embEnc rest) (hvl.trans hd)
      (fun x hx => by
        have := List.all_eq_true.mp hvals x hx
        exact of_decide_eq_true this)]
    dsimp only
    rw [hmd, readU32_u32le _ _ hmdl]
    dsimp only
    rw [if_neg (by simp)]
    rw [hids, List.take_left' (idSlot_length it.id),
      List.drop_left' (idSlot_length it.id),
      idSlot_takeWhile it.id hidv,
      List.take_left, List.drop_left,
      ih (fun x hx => h x (by simp [hx]))]
    by_cases hz : mdBytes it.metadata = []
    · simp [storedOf, hz]
    · have hnz : ¬((mdBytes it.metadata).length = 0) := by
        simpa [List.length_eq_zero] using hz
      simp [storedOf, hz, hnz]

end VDB

namespace VDB

lemma wal_trace_pre (w : List Byte) (it : Item) (env : AppendEnv) :
    ∃ t, walTraceOk it = (write_wal_record w it env).2.2 ++ t := by
  by_cases hmd : (mdBytes it.metadata).length > 0
  · simp only [write_wal_record, doWrite_eq, Bool.not_not, hmd, if_true,
      walTraceOk]
    split_ifs <;> exact ⟨_, rfl⟩
  · simp only [write_wal_record, doWrite_eq, Bool.not_not, hmd, if_false,
      walTraceOk]
    split_ifs <;> exact ⟨_, rfl⟩

set_option maxHeartbeats 2000000 in
lemma seg_trace_pre (s : Storage) (it : Item) (g : Seg) (env : AppendEnv)
    (evs : List Ev) :
    ∃ t, evs ++ segTraceOk it = (append_segments s it g env evs).2.2.2 ++ t := by
  simp only [append_segments, doWrite_eq, Bool.not_not, segTraceOk]
  by_cases hmd : (mdBytes it.metadata).length > 0
  · simp only [hmd, if_true]
    split_ifs <;> exact ⟨_, by simp <;> rfl⟩
  · simp only [hmd, if_false]
    split_ifs <;> exact ⟨_, by simp <;> rfl⟩

set_option maxHeartbeats 1000000 in
lemma append_trace_pre (s : Storage) (it : Item) (g : Seg) (env : AppendEnv)
    (hdim : it.dim = s.dim) (hid : vdb_id_is_valid (some it.id) = true) :
    ∃ t, appendTrace it = (vdb_storage_append s it g env).2.2.2 ++ t := by
  by_cases hw : walPhaseOk env it = true
  · simp only [vdb_storage_append, hdim, hid, ne_eq, not_true_eq_false,
      Bool.not_eq_true', write_wal_ok g.wal it env hw]
    obtain ⟨t, ht⟩ := seg_trace_pre s it
      (⟨g.emb, g.ids, g.md, g.wal ++ walRecordBytes it⟩ : Seg) env
      (walTraceOk it)
    exact ⟨t, by rw [appendTrace]; simpa using ht⟩
  · have hwf : walPhaseOk env it = false := by
      revert hw; cases walPhaseOk env it <;> simp
    have hst := write_wal_status g.wal it env
    rw [hwf] at hst
    simp at hst
    obtain ⟨t, ht⟩ := wal_trace_pre g.wal it env
    refine ⟨t ++ segTraceOk it, ?_⟩
    simp only [vdb_storage_append, hdim, hid, ne_eq, not_true_eq_false,
      Bool.not_eq_true', hst]
    rw [appendTrace, ht]
    simp [List.append_assoc]

end VDB

namespace VDB

lemma digitChar_toNat (d : Nat) (h : d < 10) : (digitChar d).toNat = 48 + d := by
  interval_cases d <;> decide

lemma digitChar_isDigit (d : Nat) (h : d < 10) :
    isDigitC (digitChar d) = true := by
  interval_cases d <;> decide

lemma natChars_ne_nil (n : Nat) : natChars n ≠ [] := by
  rw [natChars]
  split_ifs <;> simp

lemma natChars_digits (n : Nat) : ∀ c ∈ natChars n, isDigitC c = true := by
  induction n using Nat.strong_induction_on with
  | _ n ih =>
    rw [natChars]
    split_ifs with h
    · intro c hc
      simp only [List.mem_singleton] at hc
      subst hc
      exact digitChar_isDigit n h
    · intro c hc
      rcases List.mem_append.mp hc with hc | hc
      · exact ih (n / 10) (Nat.div_lt_self (by omega) (by omega)) c hc
      · simp only [List.mem_singleton] at hc
        subst hc
        exact digitChar_isDigit (n % 10) (Nat.mod_lt n (by omega))

lemma isWS_of_digit (c : Char) (h : isDigitC c = true) : isWS c = false := by
  simp only [isDigitC, Bool.and_eq_true, decide_eq_true_eq] at h
  simp only [isWS, Bool.or_eq_false_iff, decide_eq_false_iff_not]
  omega

/-- The next input character, if any, is not a decimal digit. -/
def headNotDigit : List Char → Prop
  | [] => True
  | c :: _ => isDigitC c = false

lemma digitsVal_stop (a : Nat) (rest : List Char) (h : headNotDigit rest) :
    digitsVal a rest = (a, rest) := by
  cases rest with
  | nil => rfl
  | cons c l =>
    simp only [headNotDigit] at h
    simp [digitsVal, h]

lemma digitsVal_natChars (n acc : Nat) (rest : List Char) :
    digitsVal acc (natChars n ++ rest)
      = digitsVal (acc * 10 ^ (natChars n).length + n) rest := by
  induction n using Nat.strong_induction_on generalizing acc rest with
  | _ n ih =>
    rw [natChars]
    split_ifs with h
    · simp only [List.length_singleton, pow_one, List.cons_append,
        List.nil_append, digitsVal, digitChar_isDigit n h, if_true]
      rw [digitChar_toNat n h]
      congr 1
      omega
    · rw [List.append_assoc, List.cons_append, List.nil_append,
        ih (n / 10) (Nat.div_lt_self (by omega) (by omega)) acc]
      simp only [digitsVal, digitChar_isDigit (n % 10) (Nat.mod_lt n (by omega)),
        if_true]
      rw [digitChar_toNat (n % 10) (Nat.mod_lt n (by omega))]
      simp only [List.length_append, List.length_singleton]
      congr 1
      have hmod : n % 10 + 48 - 48 = n % 10 := by omega
      rw [show 48 + n % 10 - 48 = n % 10 from by omega]
      rw [pow_succ]
      have := Nat.div_add_mod n 10
      ring_nf
      omega

lemma dropWS_natChars (n : Nat) (rest : List Char) :
    (natChars n ++ rest).dropWhile isWS = natChars n ++ rest := by
  have hne := natChars_ne_nil n
  cases hc : natChars n with
  | nil => exact absurd hc hne
  | cons c l =>
    have hd : isDigitC c = true := natChars_digits n c (by rw [hc]; simp)
    rw [List.cons_append, List.dropWhile_cons, isWS_of_digit c hd]
    simp

lemma parseUInt_natChars (n : Nat) (rest : List Char)
    (hrest : headNotDigit rest) :
    parseUInt (natChars n ++ rest) = some (n, rest) := by
  simp only [parseUInt]
  rw [dropWS_natChars]
  have hne := natChars_ne_nil n
  cases hc : natChars n with
  | nil => exact absurd hc hne
  | cons c l =>
    have hd : isDigitC c = true := natChars_digits n c (by rw [hc]; simp)
    simp only [List.cons_append, hd, if_true]
    rw [← List.cons_append, ← hc, digitsVal_natChars n 0 rest,
      Nat.zero_mul, Nat.zero_add, digitsVal_stop n rest hrest]

lemma matchLit_append (pat s : List Char) :
    matchLit pat (pat ++ s) = some s := by
  induction pat with
  | nil => rfl
  | cons c cs ih => simp [matchLit, ih]

end VDB

/-! ### Decimal serialization lemmas -/

namespace VDB

lemma parseInt_natChars (n : Nat) (rest : List Char)
    (hrest : headNotDigit rest) :
    parseInt (natChars n ++ rest) = some ((n : Int), rest) := by
  simp only [parseInt]
  rw [dropWS_natChars]
  have hne := natChars_ne_nil n
  cases hc : natChars n with
  | nil => exact absurd hc hne
  | cons c l =>
    have hd : isDigitC c = true := natChars_digits n c (by rw [hc]; simp)
    have hnm : ¬c = '-' := by
      intro he
      rw [he] at hd
      simp [isDigitC] at hd
    simp only [List.cons_append, hnm, if_false, hd, if_true]
    rw [← List.cons_append, ← hc, digitsVal_natChars n 0 rest,
      Nat.zero_mul, Nat.zero_add, digitsVal_stop n rest hrest]

lemma intChars_of_valid (m : Int) (h : vdb_metric_is_valid m = true) :
    intChars m = natChars m.toNat := by
  simp only [vdb_metric_is_valid, Bool.or_eq_true, beq_iff_eq] at h
  rcases h with h | h <;> subst h <;> rfl

lemma dropWhile_nl (l : List Char) :
    List.dropWhile isWS ('\n' :: l) = List.dropWhile isWS l := by
  rw [List.dropWhile_cons]
  simp [show isWS '\n' = true from by decide]

lemma dropWhile_stop (c : Char) (l : List Char) (h : isWS c = false) :
    List.dropWhile isWS (c :: l) = c :: l := by
  rw [List.dropWhile_cons]
  simp [h]

lemma read_meta_roundtrip (dim : Nat) (metric : Int) (count : Nat)
    (hdim1 : 1 ≤ dim) (hdim2 : dim ≤ MAX_DIM)
    (hm : vdb_metric_is_valid metric = true) :
    read_collection_meta (some (metaChars dim metric count))
      = .ok (dim, metric, count) := by
  have hm0 : (0 : Int) ≤ metric := by
    simp only [vdb_metric_is_valid, Bool.or_eq_true, beq_iff_eq] at hm
    rcases hm with h | h <;> omega
  have hcast : ((metric.toNat : Int)) = metric := Int.toNat_of_nonneg hm0
  have h1 : ¬(dim = 0) := by omega
  have h2 : ¬(dim > MAX_DIM) := by omega
  simp only [read_collection_meta, metaChars, List.append_assoc]
  rw [matchLit_append]
  dsimp only
  rw [parseUInt_natChars dim _ (by simp [headNotDigit, isDigitC])]
  dsimp only
  simp only [List.cons_append, List.nil_append]
  rw [dropWhile_nl, dropWhile_stop 'm' _ (by decide)]
  simp only [matchLit, reduceIte]
  rw [intChars_of_valid metric hm,
    parseInt_natChars metric.toNat _ (by simp [headNotDigit, isDigitC]),
    hcast]
  dsimp only
  rw [dropWhile_nl, dropWhile_stop 'c' _ (by decide)]
  simp only [matchLit, reduceIte]
  rw [parseUInt_natChars count _ (by simp [headNotDigit, isDigitC])]
  dsimp only
  simp [h1, h2, hm]

end VDB

namespace VDB

lemma count_nl_natChars (n : Nat) : (natChars n).count '\n' = 0 := by
  rw [List.count_eq_zero]
  intro h
  have hd := natChars_digits n _ h
  simp [isDigitC] at hd

lemma metaChars_three_lines (dim : Nat) (metric : Int) (count : Nat)
    (hm : vdb_metric_is_valid metric = true) :
    (metaChars dim metric count).count '\n' = 3 := by
  have ha : ("dimension=".data).count '\n' = 0 := by decide
  have hb : ("metric=".data).count '\n' = 0 := by decide
  have hc : ("count=".data).count '\n' = 0 := by decide
  have hd : (['\n'] : List Char).count '\n' = 1 := by decide
  simp [metaChars, List.count_append, ha, hb, hc, hd, count_nl_natChars,
    intChars_of_valid metric hm]

end VDB

namespace VDB

lemma validate_ok_iff (name : List Byte) (dim : Nat) (metric : Int) :
    vdb_collection_validate_params (some name) dim metric = .ok ↔
      (cstr name ≠ [] ∧ (cstr name).length < NAME_MAX_LEN ∧
        (∀ b ∈ cstr name, isprint b = true) ∧
        1 ≤ dim ∧ dim ≤ MAX_DIM ∧ (metric = 0 ∨ metric = 1)) := by
  cases name with
  | nil => simp [vdb_collection_validate_params, cstr]
  | cons b rest =>
    by_cases hb : b = 0
    · subst hb
      simp [vdb_collection_validate_params, cstr, takeWhile_cons_zero]
    · have hcs : cstr (b :: rest) = b :: rest.takeWhile (fun x => x ≠ 0) :=
        takeWhile_cons_ne b rest hb
      simp only [vdb_collection_validate_params, List.headD_cons, hb,
        if_false, strnlenB, vdb_metric_is_valid, hcs]
      split_ifs with h1 h2 h3 h4
      · refine iff_of_false (by simp) ?_
        rintro ⟨-, hlen, -⟩
        simp only [NAME_MAX_LEN] at *
        omega
      · refine iff_of_false (by simp) ?_
        rintro ⟨-, -, hpr, -⟩
        have hall : (b :: rest.takeWhile (fun x => decide (x ≠ 0))).all
            isprint = true := by
          rw [List.all_eq_true]
          intro x hx
          exact hpr x hx
        rw [hall] at h2
        simp at h2
      · refine iff_of_false (by simp) ?_
        rintro ⟨-, -, -, hd1, hd2, -⟩
        simp only [Bool.or_eq_true, decide_eq_true_eq] at h3
        omega
      · refine iff_of_false (by simp) ?_
        rintro ⟨-, -, -, -, -, hm⟩
        rcases hm with hm | hm <;> subst hm <;> simp at h4
      · have hall : (b :: rest.takeWhile (fun x => decide (x ≠ 0))).all
            isprint = true := by
          revert h2; cases ((b :: rest.takeWhile (fun x => decide (x ≠ 0))).all
            isprint) <;> simp
        have hm : (metric == 0 || metric == 1) = true := by
          revert h4; cases (metric == 0 || metric == 1) <;> simp
        simp only [Bool.or_eq_true, decide_eq_true_eq, not_or] at h3
        refine iff_of_true rfl ⟨by simp, ?_, ?_, by omega, by omega, ?_⟩
        · simp only [NAME_MAX_LEN] at *
          omega
        · intro x hx
          rw [List.all_eq_true] at hall
          exact hall x hx
        · simpa using hm

lemma validate_cases (name : Option (List Byte)) (dim : Nat) (metric : Int) :
    vdb_collection_validate_params name dim metric = .ok ∨
      vdb_collection_validate_params name dim metric = .invalidArgument := by
  cases name with
  | none => right; rfl
  | some nb =>
    simp only [vdb_collection_validate_params]
    split_ifs <;> simp

end VDB

/-! ### Validation, create, close and recovery lemmas -/

namespace VDB

lemma create_invalid (name : Option (List Byte)) (dim : Nat) (metric : Int)
    (fs : Disk) (env : CreateEnv)
    (h : vdb_collection_validate_params name dim metric ≠ .ok) :
    vdb_storage_create name dim metric fs env
      = (.invalidArgument, fs, none) := by
  have hv : vdb_collection_validate_params name dim metric
      = .invalidArgument := by
    rcases validate_cases name dim metric with hc | hc
    · exact absurd hc h
    · exact hc
  simp [vdb_storage_create, hv]

lemma create_exists (name : Option (List Byte)) (dim : Nat) (metric : Int)
    (fs : Disk) (env : CreateEnv)
    (h : vdb_collection_validate_params name dim metric = .ok)
    (he : fs.collDirExists = true) :
    vdb_storage_create name dim metric fs env
      = (.alreadyExists, fs, none) := by
  simp [vdb_storage_create, h, he]

lemma create_allOk (name : Option (List Byte)) (dim : Nat) (metric : Int)
    (fs : Disk)
    (h : vdb_collection_validate_params name dim metric = .ok)
    (he : fs.collDirExists = false) :
    vdb_storage_create name dim metric fs CreateEnv.allOk
      = (.ok, ⟨true, some (metaChars dim metric 0), some ⟨[], [], [], []⟩⟩,
         some ⟨dim, metric, 0⟩) := by
  simp [vdb_storage_create, h, he, CreateEnv.allOk, open_segment_files,
    recover_from_wal, RecoverEnv.allOk]

lemma create_openFail (name : Option (List Byte)) (dim : Nat) (metric : Int)
    (fs : Disk) (env : CreateEnv)
    (h : vdb_collection_validate_params name dim metric = .ok)
    (he : fs.collDirExists = false)
    (h1 : env.mkdirBaseFail = false) (h2 : env.mkdirCollFail = false)
    (h3 : env.metaWriteFail = false) (h4 : env.allocFail = false)
    (h5 : (env.embOpenFail || env.idsOpenFail || env.mdOpenFail
            || env.walOpenFail) = true) :
    vdb_storage_create name dim metric fs env
      = (.ioError, ⟨true, some (metaChars dim metric 0), none⟩, none) := by
  simp only [vdb_storage_create, h, he, h1, h2, h3, h4, ne_eq,
    not_true_eq_false, Bool.false_eq_true, if_false]
  simp only [Bool.or_eq_true] at h5
  rcases h5 with ((ha | ha) | ha) | ha <;>
    simp [open_segment_files, ha]

lemma create_metaFail (name : Option (List Byte)) (dim : Nat) (metric : Int)
    (fs : Disk) (env : CreateEnv)
    (h : vdb_collection_validate_params name dim metric = .ok)
    (he : fs.collDirExists = false)
    (h1 : env.mkdirBaseFail = false) (h2 : env.mkdirCollFail = false)
    (h3 : env.metaWriteFail = true) :
    vdb_storage_create name dim metric fs env
      = (.ioError, ⟨true, none, none⟩, none) := by
  simp [vdb_storage_create, h, he, h1, h2, h3]

lemma recover_truncFail (g : Seg) (env : RecoverEnv)
    (hw : g.wal ≠ []) (h1 : env.seekFail = false) (h2 : env.truncFail = true) :
    recover_from_wal g env = (.ioError, g) := by
  have hlen : ¬(g.wal.length = 0) := by
    simpa [List.length_eq_zero] using hw
  simp [recover_from_wal, h1, h2, hlen]

lemma close_absorbs (fs : Disk) (s : Storage) :
    vdb_storage_close fs s true = fs := by
  simp [vdb_storage_close, write_collection_meta]

end VDB

/-! ### Claim theorems -/

namespace VDB

/-- C1. The claim says recovery on open parses the pending WAL record and
replays it into the segments exactly once before truncating; the code
(`recover_from_wal`, storage.c) truncates unconditionally: on a collection
with one complete unapplied pending record, recovery returns OK with the
segments still empty and the WAL cleared, so the record is lost and
iteration yields it zero times rather than exactly once. -/
theorem claimC1_recovery_truncates_pending :
    recover_from_wal
        ⟨[], [], [], walRecordBytes ⟨[97, 0], 1, [1065353216], none⟩⟩
        RecoverEnv.allOk
      = (.ok, ⟨[], [], [], []⟩)
    ∧ walRecordBytes ⟨[97, 0], 1, [1065353216], none⟩ ≠ []
    ∧ iterateRecords 1 [] [] [] = some [] := by
  refine ⟨by decide, by decide, ?_⟩
  rw [iterateRecords]
  simp

/-- C2. Append attempts its I/O steps in the fixed order WAL-write,
WAL-fsync, segment writes, segment fsyncs, count increment, WAL truncate
(every run's trace is a prefix of that schedule and a fully successful run
performs exactly it); any step-(1) or step-(2) failure yields `IOError`
with the in-memory count unchanged, and on success the count increments. -/
theorem claimC2_append_order (s : Storage) (it : Item) (g : Seg)
    (env : AppendEnv) (hdim : it.dim = s.dim)
    (hid : vdb_id_is_valid (some it.id) = true) :
    (∃ t, appendTrace it = (vdb_storage_append s it g env).2.2.2 ++ t)
    ∧ (step12Fails env it = true →
        (vdb_storage_append s it g env).1 = .ioError ∧
          (vdb_storage_append s it g env).2.1.count = s.count)
    ∧ (step12Fails env it = false →
        (vdb_storage_append s it g env).1 = .ok ∧
          (vdb_storage_append s it g env).2.2.2 = appendTrace it ∧
          (vdb_storage_append s it g env).2.1.count = s.count + 1) := by
  refine ⟨append_trace_pre s it g env hdim hid, fun h => ?_, fun h => ?_⟩
  · obtain ⟨h1, h2⟩ := append_step12_effect s it g env hdim hid h
    exact ⟨h1, by rw [h2]⟩
  · rw [append_success s it g env hdim hid h]
    exact ⟨rfl, rfl, rfl⟩

/-- Witness for C2 at a concrete handle, item and the all-success
environment. -/
theorem claimC2_witness :
    (vdb_storage_append ⟨1, 0, 0⟩ ⟨[97, 0], 1, [0], none⟩ ⟨[], [], [], []⟩
        AppendEnv.allOk).1 = .ok
    ∧ (vdb_storage_append ⟨1, 0, 0⟩ ⟨[97, 0], 1, [0], none⟩ ⟨[], [], [], []⟩
        AppendEnv.allOk).2.1.count = 0 + 1 := by
  have h := (claimC2_append_order ⟨1, 0, 0⟩ ⟨[97, 0], 1, [0], none⟩
    ⟨[], [], [], []⟩ AppendEnv.allOk (by decide) (by decide)).2.2 (by decide)
  exact ⟨h.1, h.2.2⟩

/-- C3. An append whose vector dimension differs from the collection's
returns `DimensionMismatch` and leaves the whole state untouched: the
handle (hence the count), every file, and the trace are unchanged. -/
theorem claimC3_dimension_mismatch (s : Storage) (it : Item) (g : Seg)
    (env : AppendEnv) (hdim : it.dim ≠ s.dim) :
    vdb_storage_append s it g env = (.dimensionMismatch, s, g, []) := by
  simp [vdb_storage_append, hdim]

/-- Witness for C3 at a concrete mismatched append. -/
theorem claimC3_witness :
    vdb_storage_append ⟨2, 0, 0⟩ ⟨[97, 0], 1, [0], none⟩ ⟨[], [], [], []⟩
        AppendEnv.allOk
      = (.dimensionMismatch, ⟨2, 0, 0⟩, ⟨[], [], [], []⟩, []) :=
  claimC3_dimension_mismatch ⟨2, 0, 0⟩ ⟨[97, 0], 1, [0], none⟩
    ⟨[], [], [], []⟩ AppendEnv.allOk (by decide)

/-- C4 counterexample. The claim says a dimension mismatch makes append
fail with `InvalidArgument`; the code returns
`VDB_ERROR_DIMENSION_MISMATCH`, a different status. -/
theorem claimC4_counterexample :
    (vdb_storage_append ⟨2, 0, 0⟩ ⟨[97, 0], 1, [0], none⟩ ⟨[], [], [], []⟩
        AppendEnv.allOk).1 = .dimensionMismatch
    ∧ Status.dimensionMismatch ≠ Status.invalidArgument := by decide

/-- C4 as amended: append fails `DimensionMismatch` when the item's vector
dimension differs from the handle's, and fails `InvalidArgument` when the
dimension matches but the id fails the validity rules; in both cases the
state is unchanged. -/
theorem claimC4_amended (s : Storage) (it : Item) (g : Seg)
    (env : AppendEnv) :
    (it.dim ≠ s.dim →
      vdb_storage_append s it g env = (.dimensionMismatch, s, g, []))
    ∧ (it.dim = s.dim → vdb_id_is_valid (some it.id) = false →
      vdb_storage_append s it g env = (.invalidArgument, s, g, [])) := by
  constructor
  · intro h
    simp [vdb_storage_append, h]
  · intro h hv
    simp [vdb_storage_append, h, hv]

/-- Witness for C4 at a concrete invalid-id append (the id byte 10 is a
newline, not printable). -/
theorem claimC4_witness :
    vdb_storage_append ⟨1, 0, 0⟩ ⟨[10, 0], 1, [0], none⟩ ⟨[], [], [], []⟩
        AppendEnv.allOk
      = (.invalidArgument, ⟨1, 0, 0⟩, ⟨[], [], [], []⟩, []) :=
  (claimC4_amended ⟨1, 0, 0⟩ ⟨[10, 0], 1, [0], none⟩ ⟨[], [], [], []⟩
    AppendEnv.allOk).2 (by decide) (by decide)

/-- C5. Appending any sequence of well-formed items on one handle starting
from empty segments and then iterating yields exactly those items, in
insertion order, with the id string, the float32 patterns and the metadata
bytes identical to what was appended. -/
theorem claimC5_iterate_roundtrip (s : Storage) (items : List Item)
    (h : ∀ it ∈ items, itemWF s.dim it = true) :
    vdb_storage_iterate (appendSeq s ⟨[], [], [], []⟩ items).1
        (appendSeq s ⟨[], [], [], []⟩ items).2
      = some (items.map storedOf)
    ∧ (items.map storedOf).length = items.length
    ∧ ∀ it ∈ items, (storedOf it).id = cstr it.id
        ∧ (storedOf it).vec = it.vec
        ∧ mdBytes (storedOf it).metadata = mdBytes it.metadata := by
  refine ⟨?_, by simp, ?_⟩
  · rw [appendSeq_eq items s ⟨[], [], [], []⟩ h rfl]
    simp only [vdb_storage_iterate, List.nil_append]
    exact iterate_enc s.dim items h
  · intro it hit
    refine ⟨rfl, rfl, ?_⟩
    simp only [storedOf]
    by_cases hz : mdBytes it.metadata = []
    · rw [if_pos hz]
      exact hz.symm
    · rw [if_neg hz]
      rfl

/-- Witness for C5: two items of dimension 1, one with metadata. -/
theorem claimC5_witness :
    vdb_storage_iterate
        (appendSeq ⟨1, 0, 0⟩ ⟨[], [], [], []⟩
          [⟨[97, 0], 1, [1], none⟩, ⟨[98, 0], 1, [4294967295], some [104]⟩]).1
        (appendSeq ⟨1, 0, 0⟩ ⟨[], [], [], []⟩
          [⟨[97, 0], 1, [1], none⟩, ⟨[98, 0], 1, [4294967295], some [104]⟩]).2
      = some ([⟨[97, 0], 1, [1], none⟩,
               ⟨[98, 0], 1, [4294967295], some [104]⟩].map storedOf) :=
  (claimC5_iterate_roundtrip ⟨1, 0, 0⟩
    [⟨[97, 0], 1, [1], none⟩, ⟨[98, 0], 1, [4294967295], some [104]⟩]
    (by decide)).1

end VDB

namespace VDB

/-- C6. Parameter validation accepts exactly a non-empty printable name
shorter than 64 bytes, `1 ≤ dim ≤ 65536` and a metric in {cosine (0),
euclidean (1)}; create returns `InvalidArgument` on a validation failure,
`AlreadyExists` when the parameters validate and the collection directory
exists (the code checks validation first), and otherwise — all OS calls
succeeding — creates the directory, writes the initial metadata with
count 0, opens the four member files, and returns a handle with count 0. -/
theorem claimC6_create (name : List Byte) (dim : Nat) (metric : Int)
    (fs : Disk) (env : CreateEnv) :
    (vdb_collection_validate_params (some name) dim metric = .ok ↔
      (cstr name ≠ [] ∧ (cstr name).length < NAME_MAX_LEN ∧
        (∀ b ∈ cstr name, isprint b = true) ∧
        1 ≤ dim ∧ dim ≤ MAX_DIM ∧ (metric = 0 ∨ metric = 1)))
    ∧ (vdb_collection_validate_params (some name) dim metric ≠ .ok →
        vdb_storage_create (some name) dim metric fs env
          = (.invalidArgument, fs, none))
    ∧ (vdb_collection_validate_params (some name) dim metric = .ok →
        fs.collDirExists = true →
        vdb_storage_create (some name) dim metric fs env
          = (.alreadyExists, fs, none))
    ∧ (vdb_collection_validate_params (some name) dim metric = .ok →
        fs.collDirExists = false →
        vdb_storage_create (some name) dim metric fs CreateEnv.allOk
          = (.ok,
             ⟨true, some (metaChars dim metric 0), some ⟨[], [], [], []⟩⟩,
             some ⟨dim, metric, 0⟩)) := by
  refine ⟨validate_ok_iff name dim metric,
    fun h => create_invalid (some name) dim metric fs env h,
    fun h he => create_exists (some name) dim metric fs env h he,
    fun h he => create_allOk (some name) dim metric fs h he⟩

/-- Witness for C6: creating "demo" with dimension 3, metric cosine on an
empty disk. -/
theorem claimC6_witness :
    vdb_storage_create (some [100, 101, 109, 111, 0]) 3 0
        ⟨false, none, none⟩ CreateEnv.allOk
      = (.ok, ⟨true, some (metaChars 3 0 0), some ⟨[], [], [], []⟩⟩,
         some ⟨3, 0, 0⟩) :=
  (claimC6_create [100, 101, 109, 111, 0] 3 0 ⟨false, none, none⟩
    CreateEnv.allOk).2.2.2 (by decide) rfl

/-- C7. Writing the metadata file with a valid dimension and metric and any
count replaces the whole file content — independently of what was there —
with exactly three newline-terminated key=value lines, and reading that
content back returns the identical `(dim, metric, count)` triple. -/
theorem claimC7_meta_roundtrip (dim : Nat) (metric : Int) (count : Nat)
    (file : Option (List Char)) (h1 : 1 ≤ dim) (h2 : dim ≤ MAX_DIM)
    (hm : vdb_metric_is_valid metric = true) :
    write_collection_meta false dim metric count file
      = (.ok, some (metaChars dim metric count))
    ∧ read_collection_meta (some (metaChars dim metric count))
      = .ok (dim, metric, count)
    ∧ (metaChars dim metric count).count '\n' = 3 :=
  ⟨rfl, read_meta_roundtrip dim metric count h1 h2 hm,
   metaChars_three_lines dim metric count hm⟩

/-- Witness for C7 at dimension 3, metric cosine, count 42. -/
theorem claimC7_witness :
    read_collection_meta (some (metaChars 3 0 42)) = .ok (3, 0, 42) :=
  (claimC7_meta_roundtrip 3 0 42 none (by decide) (by decide)
    (by decide)).2.1

/-- C8 counterexample. The claim says a failed write of the final metadata
during close is reported; `vdb_storage_close` is `void` and discards the
`write_collection_meta` status: with an in-memory count of 5 and a failing
metadata write, close completes, returns nothing, and leaves the stale
on-disk metadata still reading count 0. -/
theorem claimC8_counterexample :
    vdb_storage_close
        ⟨true, some "dimension=3\nmetric=0\ncount=0\n".data,
         some ⟨[], [], [], []⟩⟩ ⟨3, 0, 5⟩ true
      = ⟨true, some "dimension=3\nmetric=0\ncount=0\n".data,
         some ⟨[], [], [], []⟩⟩
    ∧ read_collection_meta (some "dimension=3\nmetric=0\ncount=0\n".data)
      = .ok (3, 0, 0)
    ∧ (5 : Nat) ≠ 0 := by
  refine ⟨rfl, rfl, by decide⟩

/-- C8 as amended: every status-returning operation surfaces I/O failures —
append surfaces any step-(1)/(2) failure as `IOError`, create surfaces a
failed metadata write as `IOError`, recovery surfaces a failed truncate as
`IOError` — and the internally-absorbed failures are the WAL truncate after
a successful append (append still returns OK and counts the item) and
everything inside `close`, which returns void and in particular swallows a
failed final-metadata write, leaving the previous file content. -/
theorem claimC8_amended :
    (∀ (s : Storage) (it : Item) (g : Seg), it.dim = s.dim →
      vdb_id_is_valid (some it.id) = true →
      (vdb_storage_append s it g
          { AppendEnv.allOk with walTruncFail := true }).1 = .ok ∧
        (vdb_storage_append s it g
          { AppendEnv.allOk with walTruncFail := true }).2.1.count
          = s.count + 1)
    ∧ (∀ (s : Storage) (it : Item) (g : Seg) (env : AppendEnv),
        it.dim = s.dim → vdb_id_is_valid (some it.id) = true →
        step12Fails env it = true →
        (vdb_storage_append s it g env).1 = .ioError)
    ∧ (∀ (name : Option (List Byte)) (dim : Nat) (metric : Int) (fs : Disk)
        (env : CreateEnv),
        vdb_collection_validate_params name dim metric = .ok →
        fs.collDirExists = false → env.mkdirBaseFail = false →
        env.mkdirCollFail = false → env.metaWriteFail = true →
        (vdb_storage_create name dim metric fs env).1 = .ioError)
    ∧ (∀ (g : Seg) (env : RecoverEnv), g.wal ≠ [] →
        env.seekFail = false → env.truncFail = true →
        recover_from_wal g env = (.ioError, g))
    ∧ (∀ (fs : Disk) (s : Storage), vdb_storage_close fs s true = fs) := by
  refine ⟨fun s it g hdim hid => ?_,
    fun s it g env hdim hid h =>
      (append_step12_effect s it g env hdim hid h).1,
    fun name dim metric fs env h he h1 h2 h3 => ?_,
    fun g env hw h1 h2 => recover_truncFail g env hw h1 h2,
    fun fs s => close_absorbs fs s⟩
  · have h12 : step12Fails { AppendEnv.allOk with walTruncFail := true } it
        = false := by
      simp [step12Fails, AppendEnv.allOk, wfails]
    rw [append_success s it g _ hdim hid h12]
    exact ⟨rfl, rfl⟩
  · rw [create_metaFail name dim metric fs env h he h1 h2 h3]

/-- Witness for C8: the WAL-truncate failure after a successful append is
absorbed at a concrete input. -/
theorem claimC8_witness :
    (vdb_storage_append ⟨1, 0, 0⟩ ⟨[97, 0], 1, [0], none⟩ ⟨[], [], [], []⟩
        { AppendEnv.allOk with walTruncFail := true }).1 = .ok :=
  (claimC8_amended.1 ⟨1, 0, 0⟩ ⟨[97, 0], 1, [0], none⟩ ⟨[], [], [], []⟩
    (by decide) (by decide)).1

/-- C9. When the WAL phase succeeded and append nevertheless returns
`IOError` (a segment write or fsync failed), no error path truncates the
WAL: the WAL file still holds the complete pending record. -/
theorem claimC9_wal_preserved (s : Storage) (it : Item) (g : Seg)
    (env : AppendEnv) (hdim : it.dim = s.dim)
    (hid : vdb_id_is_valid (some it.id) = true) (hwal : g.wal = [])
    (hw : walPhaseOk env it = true)
    (hio : (vdb_storage_append s it g env).1 = .ioError) :
    (vdb_storage_append s it g env).2.2.1.wal = walRecordBytes it := by
  have h := append_wal_of_ioError s it g env hdim hid hw hio
  rwa [hwal, List.nil_append] at h

/-- Witness for C9: the embeddings write fails (a short write of zero
bytes) after a fully successful WAL phase. -/
theorem claimC9_witness :
    (vdb_storage_append ⟨1, 0, 0⟩ ⟨[97, 0], 1, [0], none⟩ ⟨[], [], [], []⟩
        { AppendEnv.allOk with embWrite := some 0 }).2.2.1.wal
      = walRecordBytes ⟨[97, 0], 1, [0], none⟩ :=
  claimC9_wal_preserved ⟨1, 0, 0⟩ ⟨[97, 0], 1, [0], none⟩ ⟨[], [], [], []⟩
    { AppendEnv.allOk with embWrite := some 0 }
    (by decide) (by decide) rfl (by decide) (by decide)

/-- C10. Create is not atomic on failure: when a segment or WAL file open
fails after the directory and initial metadata were created, they remain
on disk, and any subsequent create of the same collection fails
`AlreadyExists`. -/
theorem claimC10_create_not_atomic (name : Option (List Byte)) (dim : Nat)
    (metric : Int) (fs : Disk) (env : CreateEnv)
    (h : vdb_collection_validate_params name dim metric = .ok)
    (he : fs.collDirExists = false)
    (h1 : env.mkdirBaseFail = false) (h2 : env.mkdirCollFail = false)
    (h3 : env.metaWriteFail = false) (h4 : env.allocFail = false)
    (h5 : (env.embOpenFail || env.idsOpenFail || env.mdOpenFail
            || env.walOpenFail) = true) :
    vdb_storage_create name dim metric fs env
      = (.ioError, ⟨true, some (metaChars dim metric 0), none⟩, none)
    ∧ ∀ env2 : CreateEnv,
        vdb_storage_create name dim metric
          ⟨true, some (metaChars dim metric 0), none⟩ env2
        = (.alreadyExists, ⟨true, some (metaChars dim metric 0), none⟩,
           none) := by
  refine ⟨create_openFail name dim metric fs env h he h1 h2 h3 h4 h5,
    fun env2 => create_exists name dim metric _ env2 h rfl⟩

/-- Witness for C10: the WAL open fails while creating "demo"; the retry
hits `AlreadyExists`. -/
theorem claimC10_witness :
    vdb_storage_create (some [100, 101, 109, 111, 0]) 3 0
        ⟨true, some (metaChars 3 0 0), none⟩ CreateEnv.allOk
      = (.alreadyExists, ⟨true, some (metaChars 3 0 0), none⟩, none) :=
  (claimC10_create_not_atomic (some [100, 101, 109, 111, 0]) 3 0
    ⟨false, none, none⟩ { CreateEnv.allOk with walOpenFail := true }
    (by decide) rfl rfl rfl rfl rfl (by decide)).2 CreateEnv.allOk

end VDB
